import Mathlib

/-!
Verification of `print_out` from `src/wrapper.c` (lazytiger/ipset wrapper).

The C function renders a printf-style template into a heap buffer, retrying
with a larger buffer when the first one is too small, and hands the rendered
text to the external sink `ipset_out(p, data, n, length)` together with the
reported length `n` and the buffer capacity `length`.

Shallow embedding choices:
* For a fixed template and argument list the platform primitive `vsnprintf`
  is deterministic: it either reports an encoding error with some negative
  return value on every call, or it has a fixed fully-rendered string `s`
  and returns `s.length` on every call.  `Fmt` captures exactly these two
  behaviours of the fully-applied template.
* `vsnprintf(data, size, fmt, args)` with `size ≥ 1` writes
  `min (s.length) (size - 1)` rendered characters followed by a NUL
  terminator into the buffer and returns the full required length
  `s.length`; the remaining bytes are modelled as NUL.  (C99 7.19.6.12.)
* `malloc` may fail at any call; the oracle `alloc : Nat → Bool` says
  whether the i-th `malloc` of the call succeeds.
* Heap and sink activity is recorded as a trace of events (`malloc`
  success, `free`, `ipset_out` invocation) so that claims about invocation
  counts, buffer lifetime and liveness can be stated.
* The C `do { … } while (running)` loop is embedded with explicit fuel
  (number of remaining iterations); `none` means the fuel ran out before
  the loop exited.  Fuel 2 is proved sufficient for every input.
-/

/-- The NUL character written by `vsnprintf` as terminator. -/
def NUL : Char := Char.ofNat 0

/-- Deterministic behaviour of the platform formatting primitive for one
fully-applied template: either every render attempt fails with the negative
return value `-(1+code)` (an encoding error), or the fully-rendered output
is the string `s`. -/
inductive Fmt where
  | err (code : Nat)
  | ok (s : List Char)
deriving DecidableEq

/-- The `int` returned by `vsnprintf` for this template, independent of the
buffer size: negative on encoding error, otherwise the full required length
of the rendering (excluding the terminator). -/
def fmtLen : Fmt → Int
  | .err code => -(1 + (code : Int))
  | .ok s => s.length

/-- The buffer contents after `vsnprintf(data, size, …)`: at most `size - 1`
rendered characters, then a NUL terminator, remaining bytes modelled as NUL.
On an encoding error the contents are unspecified; modelled as all NUL. -/
def vsnprintfBuf (f : Fmt) (size : Nat) : List Char :=
  match f with
  | .err _ => List.replicate size NUL
  | .ok s => s.take (size - 1) ++ List.replicate (size - min s.length (size - 1)) NUL

/-- One invocation of the sink `ipset_out(p, output, len, cap)`: the buffer
handed over (`cap` bytes), the reported length and the reported capacity. -/
structure SinkCall where
  buf : List Char
  len : Nat
  cap : Nat
deriving DecidableEq

/-- Heap / sink events of one `print_out` call, in program order: a
successful `malloc` of the given size, a `free`, or an `ipset_out` call. -/
inductive Event where
  | alloc (size : Nat)
  | free
  | sink (c : SinkCall)
deriving DecidableEq

/-- How the call returned: `malloc` returned NULL (`return 0`), `vsnprintf`
was negative (`return n`), or the sink was invoked (`return length`). -/
inductive Exit where
  | allocFail
  | encodingError
  | success
deriving DecidableEq

/-- Observable outcome of one `print_out` call: the returned `int`, which
exit path was taken, and the heap/sink event trace. -/
structure Result where
  ret : Int
  exit : Exit
  trace : List Event
deriving DecidableEq

/-- The `do … while (running)` loop of `print_out`, one constructor per
iteration of fuel.  State: remaining fuel, the C variable `length`
(current candidate capacity), and the index of the next `malloc` for the
allocation oracle.  Mirrors `src/wrapper.c` lines 14–34:
`malloc(length)`; on NULL `return 0`; `n = vsnprintf(data, length, …)`;
if `n < 0` then `free(data); return n`; else if `n <= length` then
`ipset_out(p, data, n, length); running = 0; length = n` (no free);
else `length = n; free(data)` and repeat.  After the loop: `return length`. -/
def print_out_loop (f : Fmt) (alloc : Nat → Bool) :
    Nat → Nat → Nat → Option Result
  | 0, _, _ => none
  | fuel + 1, length, attempt =>
    if alloc attempt then
      if fmtLen f < 0 then
        some ⟨fmtLen f, .encodingError, [.alloc length, .free]⟩
      else if fmtLen f ≤ (length : Int) then
        some ⟨fmtLen f, .success,
          [.alloc length, .sink ⟨vsnprintfBuf f length, (fmtLen f).toNat, length⟩]⟩
      else
        (print_out_loop f alloc fuel (fmtLen f).toNat (attempt + 1)).map
          (fun r => ⟨r.ret, r.exit, .alloc length :: .free :: r.trace⟩)
    else
      some ⟨0, .allocFail, []⟩

/-- `print_out(session, p, fmt, ...)` from `src/wrapper.c`: the loop started
with the initial candidate capacity `int length = 1024` and the first
allocation.  (`session` is cast to void and `p` is passed through to the
sink unmodified, so neither appears in the model.) -/
def print_out (f : Fmt) (alloc : Nat → Bool) (fuel : Nat) : Option Result :=
  print_out_loop f alloc fuel 1024 0

/-- The sink invocations recorded in a trace, in order. -/
def sinkCalls (tr : List Event) : List SinkCall :=
  tr.filterMap fun e =>
    match e with
    | .sink c => some c
    | _ => none

/-- The sizes of the successful allocations in a trace, in order.  Each
successful `malloc` is followed by exactly one `vsnprintf` render attempt,
so this list also enumerates the render attempts and their capacities. -/
def allocSizes (tr : List Event) : List Nat :=
  tr.filterMap fun e =>
    match e with
    | .alloc size => some size
    | _ => none

/-- Number of render attempts (`vsnprintf` calls) recorded in a trace. -/
def attempts (tr : List Event) : Nat := (allocSizes tr).length

/-- Number of `free` events in a trace. -/
def frees (tr : List Event) : Nat :=
  (tr.filterMap fun e =>
    match e with
    | .free => some ()
    | _ => none).length

/-- Net effect of one event on the number of live allocations: a sink call
hands the pointer to the callee but releases nothing. -/
def Event.delta : Event → Int
  | .alloc _ => 1
  | .free => -1
  | .sink _ => 0

/-- Number of allocations made by `print_out` that are live after the
events of `tr` have happened. -/
def live (tr : List Event) : Int := (tr.map Event.delta).sum

/-- The loop body of `print_out` when `malloc` fails: `return 0`, no events. -/
theorem print_out_loop_allocFail (f : Fmt) (alloc : Nat → Bool)
    (fuel length attempt : Nat) (h : alloc attempt = false) :
    print_out_loop f alloc (fuel + 1) length attempt =
      some ⟨0, .allocFail, []⟩ := by
  simp [print_out_loop, h]

/-- The loop body when `vsnprintf` reports an encoding error: the buffer is
freed and the negative value is returned. -/
theorem print_out_loop_err (c : Nat) (alloc : Nat → Bool)
    (fuel length attempt : Nat) (h : alloc attempt = true) :
    print_out_loop (Fmt.err c) alloc (fuel + 1) length attempt =
      some ⟨-(1 + (c : Int)), .encodingError, [.alloc length, .free]⟩ := by
  have hneg : fmtLen (Fmt.err c) < 0 := by simp [fmtLen]; omega
  simp only [print_out_loop]
  rw [if_pos h, if_pos hneg]
  rfl

/-- The loop body when the reported length fits (`n <= length`): the sink is
invoked with the buffer, the reported length and the capacity, and the loop
exits returning `n`. -/
theorem print_out_loop_fit (s : List Char) (alloc : Nat → Bool)
    (fuel length attempt : Nat) (h : alloc attempt = true)
    (hfit : s.length ≤ length) :
    print_out_loop (Fmt.ok s) alloc (fuel + 1) length attempt =
      some ⟨(s.length : Int), .success,
        [.alloc length,
         .sink ⟨vsnprintfBuf (Fmt.ok s) length, s.length, length⟩]⟩ := by
  have h1 : ¬ fmtLen (Fmt.ok s) < 0 := by simp [fmtLen]
  have h2 : fmtLen (Fmt.ok s) ≤ (length : Int) := by
    simp only [fmtLen]; exact_mod_cast hfit
  simp only [print_out_loop]
  rw [if_pos h, if_neg h1, if_pos h2]
  rfl

/-- The loop body on a capacity miss (`n > length`): the buffer is freed and
the loop repeats with candidate capacity exactly `n`. -/
theorem print_out_loop_miss (s : List Char) (alloc : Nat → Bool)
    (fuel length attempt : Nat) (h : alloc attempt = true)
    (hmiss : length < s.length) :
    print_out_loop (Fmt.ok s) alloc (fuel + 1) length attempt =
      (print_out_loop (Fmt.ok s) alloc fuel s.length (attempt + 1)).map
        (fun r => ⟨r.ret, r.exit, .alloc length :: .free :: r.trace⟩) := by
  have h1 : ¬ fmtLen (Fmt.ok s) < 0 := by simp [fmtLen]
  have h2 : ¬ fmtLen (Fmt.ok s) ≤ (length : Int) := by
    simp only [fmtLen, not_le]
    exact_mod_cast hmiss
  simp only [print_out_loop]
  rw [if_pos h, if_neg h1, if_neg h2]
  rfl

/-- Fuel monotonicity: a run of the loop that exits within `fuel` iterations
exits with the same outcome given one more unit of fuel. -/
theorem print_out_loop_mono (f : Fmt) (alloc : Nat → Bool) :
    ∀ fuel length attempt r,
      print_out_loop f alloc fuel length attempt = some r →
      print_out_loop f alloc (fuel + 1) length attempt = some r := by
  intro fuel
  induction fuel with
  | zero =>
    intro length attempt r h
    simp [print_out_loop] at h
  | succ fuel ih =>
    intro length attempt r h
    by_cases ha : alloc attempt = true
    · cases f with
      | err c =>
        rw [print_out_loop_err c alloc fuel length attempt ha] at h
        rw [print_out_loop_err c alloc (fuel + 1) length attempt ha]
        exact h
      | ok s =>
        by_cases hfit : s.length ≤ length
        · rw [print_out_loop_fit s alloc fuel length attempt ha hfit] at h
          rw [print_out_loop_fit s alloc (fuel + 1) length attempt ha hfit]
          exact h
        · have hmiss : length < s.length := Nat.not_le.mp hfit
          rw [print_out_loop_miss s alloc fuel length attempt ha hmiss] at h
          rw [print_out_loop_miss s alloc (fuel + 1) length attempt ha hmiss]
          rcases Option.map_eq_some'.mp h with ⟨r', hr', hrr⟩
          rw [ih s.length (attempt + 1) r' hr']
          simpa using hrr
    · have ha' : alloc attempt = false := by simpa using ha
      rw [print_out_loop_allocFail f alloc fuel length attempt ha'] at h
      rw [print_out_loop_allocFail f alloc (fuel + 1) length attempt ha']
      exact h

/-- Fuel monotonicity, iterated. -/
theorem print_out_loop_mono_add (f : Fmt) (alloc : Nat → Bool)
    (fuel length attempt : Nat) (r : Result) (k : Nat)
    (h : print_out_loop f alloc fuel length attempt = some r) :
    print_out_loop f alloc (fuel + k) length attempt = some r := by
  induction k with
  | zero => exact h
  | succ k ih => exact print_out_loop_mono f alloc (fuel + k) length attempt r ih

/-- Two iterations of fuel always suffice for the loop to exit: the second
attempt's capacity equals the reported required length, which satisfies the
acceptance test `n <= length`. -/
theorem print_out_loop_two_isSome (f : Fmt) (alloc : Nat → Bool)
    (length attempt : Nat) :
    (print_out_loop f alloc 2 length attempt).isSome := by
  by_cases ha : alloc attempt = true
  · cases f with
    | err c => rw [print_out_loop_err c alloc 1 length attempt ha]; rfl
    | ok s =>
      by_cases hfit : s.length ≤ length
      · rw [print_out_loop_fit s alloc 1 length attempt ha hfit]; rfl
      · have hmiss : length < s.length := Nat.not_le.mp hfit
        rw [print_out_loop_miss s alloc 1 length attempt ha hmiss]
        by_cases ha1 : alloc (attempt + 1) = true
        · rw [print_out_loop_fit s alloc 0 s.length (attempt + 1) ha1
            (Nat.le_refl _)]
          rfl
        · have ha1' : alloc (attempt + 1) = false := by simpa using ha1
          rw [print_out_loop_allocFail (Fmt.ok s) alloc 0 s.length
            (attempt + 1) ha1']
          rfl
  · have ha' : alloc attempt = false := by simpa using ha
    rw [print_out_loop_allocFail f alloc 1 length attempt ha']
    rfl

/-- Any exiting run of the loop, with however much fuel, has the same
outcome as the fuel-2 run. -/
theorem print_out_loop_some_eq (f : Fmt) (alloc : Nat → Bool)
    (fuel length attempt : Nat) (r : Result)
    (h : print_out_loop f alloc fuel length attempt = some r) :
    print_out_loop f alloc 2 length attempt = some r := by
  rcases le_or_lt fuel 2 with hle | hlt
  · obtain ⟨k, hk⟩ : ∃ k, 2 = fuel + k := ⟨2 - fuel, by omega⟩
    rw [hk]
    exact print_out_loop_mono_add f alloc fuel length attempt r k h
  · obtain ⟨r2, hr2⟩ := Option.isSome_iff_exists.mp
      (print_out_loop_two_isSome f alloc length attempt)
    obtain ⟨k, hk⟩ : ∃ k, fuel = 2 + k := ⟨fuel - 2, by omega⟩
    have h2 := print_out_loop_mono_add f alloc 2 length attempt r2 k hr2
    rw [hk, h2] at h
    injection h with h
    rw [hr2, h]

/-- Shape of every exiting run of `print_out`: first-attempt allocation
failure, encoding error, first-attempt fit, second-attempt allocation
failure after a capacity miss, or second-attempt fit after a capacity
miss.  These five cases are exhaustive for every fuel and oracle. -/
theorem print_out_cases (f : Fmt) (alloc : Nat → Bool) (fuel : Nat)
    (r : Result) (h : print_out f alloc fuel = some r) :
    (alloc 0 = false ∧ r = ⟨0, .allocFail, []⟩) ∨
    (∃ c, alloc 0 = true ∧ f = .err c ∧
      r = ⟨-(1 + (c : Int)), .encodingError, [.alloc 1024, .free]⟩) ∨
    (∃ s, alloc 0 = true ∧ f = .ok s ∧ s.length ≤ 1024 ∧
      r = ⟨(s.length : Int), .success,
        [.alloc 1024,
         .sink ⟨vsnprintfBuf (Fmt.ok s) 1024, s.length, 1024⟩]⟩) ∨
    (∃ s, alloc 0 = true ∧ alloc 1 = false ∧ f = .ok s ∧ 1024 < s.length ∧
      r = ⟨0, .allocFail, [.alloc 1024, .free]⟩) ∨
    (∃ s, alloc 0 = true ∧ alloc 1 = true ∧ f = .ok s ∧ 1024 < s.length ∧
      r = ⟨(s.length : Int), .success,
        [.alloc 1024, .free, .alloc s.length,
         .sink ⟨vsnprintfBuf (Fmt.ok s) s.length, s.length,
           s.length⟩]⟩) := by
  have h2 : print_out_loop f alloc (1 + 1) 1024 0 = some r :=
    print_out_loop_some_eq f alloc fuel 1024 0 r h
  by_cases ha : alloc 0 = true
  · cases f with
    | err c =>
      rw [print_out_loop_err c alloc 1 1024 0 ha] at h2
      injection h2 with h2
      exact Or.inr (Or.inl ⟨c, ha, rfl, h2.symm⟩)
    | ok s =>
      by_cases hfit : s.length ≤ 1024
      · rw [print_out_loop_fit s alloc 1 1024 0 ha hfit] at h2
        injection h2 with h2
        exact Or.inr (Or.inr (Or.inl ⟨s, ha, rfl, hfit, h2.symm⟩))
      · have hmiss : 1024 < s.length := Nat.not_le.mp hfit
        rw [print_out_loop_miss s alloc 1 1024 0 ha hmiss] at h2
        by_cases ha1 : alloc 1 = true
        · have hfit1 : print_out_loop (Fmt.ok s) alloc (0 + 1) s.length 1 =
              some ⟨(s.length : Int), .success,
                [.alloc s.length,
                 .sink ⟨vsnprintfBuf (Fmt.ok s) s.length, s.length,
                   s.length⟩]⟩ :=
            print_out_loop_fit s alloc 0 s.length 1 ha1 (Nat.le_refl _)
          rw [hfit1] at h2
          injection h2 with h2
          exact Or.inr (Or.inr (Or.inr (Or.inr
            ⟨s, ha, ha1, rfl, hmiss, h2.symm⟩)))
        · have ha1' : alloc 1 = false := by simpa using ha1
          have hfail1 : print_out_loop (Fmt.ok s) alloc (0 + 1) s.length 1 =
              some ⟨0, .allocFail, []⟩ :=
            print_out_loop_allocFail (Fmt.ok s) alloc 0 s.length 1 ha1'
          rw [hfail1] at h2
          injection h2 with h2
          exact Or.inr (Or.inr (Or.inr (Or.inl
            ⟨s, ha, ha1', rfl, hmiss, h2.symm⟩)))
  · have ha' : alloc 0 = false := by simpa using ha
    rw [print_out_loop_allocFail f alloc 1 1024 0 ha'] at h2
    injection h2 with h2
    exact Or.inl ⟨ha', h2.symm⟩

/-- C3: in every `print_out` call the sink `ipset_out` is invoked at most
once; and whenever the call returns a non-negative result without an
allocation failure, the sink is invoked exactly once. -/
theorem C3_sink_at_most_once (f : Fmt) (alloc : Nat → Bool) (fuel : Nat)
    (r : Result) (h : print_out f alloc fuel = some r) :
    (sinkCalls r.trace).length ≤ 1 ∧
      (0 ≤ r.ret → r.exit ≠ Exit.allocFail →
        (sinkCalls r.trace).length = 1) := by
  rcases print_out_cases f alloc fuel r h with
    ⟨_, rfl⟩ | ⟨c, _, _, rfl⟩ | ⟨s, _, _, _, rfl⟩ | ⟨s, _, _, _, _, rfl⟩ |
      ⟨s, _, _, _, _, rfl⟩
  · exact ⟨by simp [sinkCalls], fun _ hx => absurd rfl hx⟩
  · refine ⟨by simp [sinkCalls], fun hx _ => absurd hx ?_⟩
    simp only [not_le]
    omega
  · exact ⟨by simp [sinkCalls], fun _ _ => by simp [sinkCalls]⟩
  · exact ⟨by simp [sinkCalls], fun _ hx => absurd rfl hx⟩
  · exact ⟨by simp [sinkCalls], fun _ _ => by simp [sinkCalls]⟩

/-- C4: whenever `print_out` exits through the success path, its return
value is the length reported by the formatting primitive, and the single
sink invocation carried exactly that length. -/
theorem C4_returns_reported_length (f : Fmt) (alloc : Nat → Bool)
    (fuel : Nat) (r : Result) (h : print_out f alloc fuel = some r)
    (hs : r.exit = Exit.success) :
    r.ret = fmtLen f ∧
      (sinkCalls r.trace).map SinkCall.len = [r.ret.toNat] := by
  rcases print_out_cases f alloc fuel r h with
    ⟨_, rfl⟩ | ⟨c, _, _, rfl⟩ | ⟨s, _, hf, _, rfl⟩ | ⟨s, _, _, _, _, rfl⟩ |
      ⟨s, _, _, hf, _, rfl⟩
  · exact absurd hs (by simp)
  · exact absurd hs (by simp)
  · exact ⟨by rw [hf]; rfl, by simp [sinkCalls]⟩
  · exact absurd hs (by simp)
  · exact ⟨by rw [hf]; rfl, by simp [sinkCalls]⟩

/-- C5: whenever `print_out` exits because `malloc` returned NULL, the
returned value is 0 and the sink was never invoked during the call. -/
theorem C5_alloc_failure (f : Fmt) (alloc : Nat → Bool) (fuel : Nat)
    (r : Result) (h : print_out f alloc fuel = some r)
    (hs : r.exit = Exit.allocFail) :
    r.ret = 0 ∧ sinkCalls r.trace = [] := by
  rcases print_out_cases f alloc fuel r h with
    ⟨_, rfl⟩ | ⟨c, _, _, rfl⟩ | ⟨s, _, _, _, rfl⟩ | ⟨s, _, _, _, _, rfl⟩ |
      ⟨s, _, _, _, _, rfl⟩
  · exact ⟨rfl, by simp [sinkCalls]⟩
  · exact absurd hs (by simp)
  · exact absurd hs (by simp)
  · exact ⟨rfl, by simp [sinkCalls]⟩
  · exact absurd hs (by simp)

/-- C6: whenever the formatting primitive reports an encoding error (it is
reached, so the first `malloc` succeeded), `print_out` returns that same
negative value and the sink is never invoked. -/
theorem C6_encoding_error (c : Nat) (alloc : Nat → Bool) (fuel : Nat)
    (r : Result) (h : print_out (Fmt.err c) alloc fuel = some r)
    (ha : alloc 0 = true) :
    r.ret = fmtLen (Fmt.err c) ∧ r.ret < 0 ∧ sinkCalls r.trace = [] := by
  rcases print_out_cases (Fmt.err c) alloc fuel r h with
    ⟨ha', _⟩ | ⟨c', _, hf, rfl⟩ | ⟨s, _, hf, _, _⟩ | ⟨s, _, _, hf, _, _⟩ |
      ⟨s, _, _, hf, _, _⟩
  · rw [ha] at ha'; exact absurd ha' (by simp)
  · injection hf with hf
    subst hf
    refine ⟨rfl, ?_, by simp [sinkCalls]⟩
    show -(1 + (c : Int)) < 0
    omega
  · exact absurd hf (by simp)
  · exact absurd hf (by simp)
  · exact absurd hf (by simp)

/-- C7: on a successful run whose rendering is longer than the initial
1024-byte candidate capacity, exactly two render attempts happen, with
capacities 1024 and then exactly the reported required length (no extra
terminator byte). -/
theorem C7_resize_to_reported_length (s : List Char) (alloc : Nat → Bool)
    (fuel : Nat) (r : Result)
    (h : print_out (Fmt.ok s) alloc fuel = some r)
    (hs : r.exit = Exit.success) (hlong : 1024 < s.length) :
    allocSizes r.trace = [1024, s.length] ∧ attempts r.trace = 2 := by
  rcases print_out_cases (Fmt.ok s) alloc fuel r h with
    ⟨_, rfl⟩ | ⟨c, _, hf, _⟩ | ⟨s', _, hf, hfit, rfl⟩ |
      ⟨s', _, _, _, _, rfl⟩ | ⟨s', _, _, hf, _, rfl⟩
  · exact absurd hs (by simp)
  · exact absurd hf (by simp)
  · injection hf with hf
    subst hf
    omega
  · exact absurd hs (by simp)
  · injection hf with hf
    subst hf
    exact ⟨by simp [allocSizes], by simp [attempts, allocSizes]⟩

/-- C10: for a fixed template and argument list the `do`-`while` loop of
`print_out` always exits within two iterations, and any fuel of at least
two yields the identical outcome. -/
theorem C10_terminates_in_two_iterations (f : Fmt) (alloc : Nat → Bool) :
    (print_out f alloc 2).isSome = true ∧
      ∀ fuel, 2 ≤ fuel → print_out f alloc fuel = print_out f alloc 2 := by
  refine ⟨print_out_loop_two_isSome f alloc 1024 0, fun fuel hfuel => ?_⟩
  obtain ⟨r2, hr2⟩ := Option.isSome_iff_exists.mp
    (print_out_loop_two_isSome f alloc 1024 0)
  obtain ⟨k, hk⟩ : ∃ k, fuel = 2 + k := ⟨fuel - 2, by omega⟩
  show print_out_loop f alloc fuel 1024 0 = print_out_loop f alloc 2 1024 0
  rw [hk, print_out_loop_mono_add f alloc 2 1024 0 r2 k hr2, hr2]

/-- C2 (amended): on every successful `print_out` run, the number of render
attempts is two when the rendering is strictly longer than 1024 bytes
(capacity miss, then exact fit) and one when it is at most 1024 bytes — in
particular a rendering of length exactly 1024 is accepted by the
`n <= length` test on the first attempt — and the sink is invoked exactly
once either way. -/
theorem C2_attempt_counts (s : List Char) (alloc : Nat → Bool) (fuel : Nat)
    (r : Result) (h : print_out (Fmt.ok s) alloc fuel = some r)
    (hs : r.exit = Exit.success) :
    attempts r.trace = (if 1024 < s.length then 2 else 1) ∧
      (sinkCalls r.trace).length = 1 := by
  rcases print_out_cases (Fmt.ok s) alloc fuel r h with
    ⟨_, rfl⟩ | ⟨c, _, hf, _⟩ | ⟨s', _, hf, hfit, rfl⟩ |
      ⟨s', _, _, _, _, rfl⟩ | ⟨s', _, _, hf, hlong, rfl⟩
  · exact absurd hs (by simp)
  · exact absurd hf (by simp)
  · injection hf with hf
    subst hf
    rw [if_neg (Nat.not_lt.mpr hfit)]
    exact ⟨by simp [attempts, allocSizes], by simp [sinkCalls]⟩
  · exact absurd hs (by simp)
  · injection hf with hf
    subst hf
    rw [if_pos hlong]
    exact ⟨by simp [attempts, allocSizes], by simp [sinkCalls]⟩

/-- C9 (amended): in every `print_out` call at most one allocation made by
the call is live at any instant (each discarded or errored attempt frees
its buffer within the attempt), but on the success path the buffer that
was handed to the sink is not freed by `print_out` and is still live when
the call returns. -/
theorem C9_liveness (f : Fmt) (alloc : Nat → Bool) (fuel : Nat)
    (r : Result) (h : print_out f alloc fuel = some r) :
    (∀ k, 0 ≤ live (r.trace.take k) ∧ live (r.trace.take k) ≤ 1) ∧
      live r.trace = (if r.exit = Exit.success then 1 else 0) := by
  rcases print_out_cases f alloc fuel r h with
    ⟨_, rfl⟩ | ⟨c, _, _, rfl⟩ | ⟨s, _, _, _, rfl⟩ | ⟨s, _, _, _, _, rfl⟩ |
      ⟨s, _, _, _, _, rfl⟩
  · exact ⟨fun k => by simp [live], by simp [live]⟩
  · refine ⟨fun k => ?_, by simp [live, Event.delta]⟩
    rcases k with _ | _ | k <;> simp [live, Event.delta]
  · refine ⟨fun k => ?_, by simp [live, Event.delta]⟩
    rcases k with _ | _ | k <;> simp [live, Event.delta]
  · refine ⟨fun k => ?_, by simp [live, Event.delta]⟩
    rcases k with _ | _ | k <;> simp [live, Event.delta]
  · refine ⟨fun k => ?_, by simp [live, Event.delta]⟩
    rcases k with _ | _ | _ | _ | k <;> simp [live, Event.delta]

/-- C1: code bug.  A rendering whose full length is exactly 1024 (the
initial capacity) is accepted by the `n <= length` test on the first
attempt, but `vsnprintf` wrote only `length - 1 = 1023` rendered characters
plus a NUL terminator into the 1024-byte buffer.  The sink is handed that
buffer with length argument 1024, yet the buffer is not the full rendering:
its last byte is NUL, not the 1024th character.  So the buffer handed to
the sink is truncated, against the claimed invariant. -/
theorem C1_truncated_at_exact_capacity :
    print_out (Fmt.ok (List.replicate 1024 'a')) (fun _ => true) 2 =
      some ⟨1024, .success,
        [.alloc 1024,
         .sink ⟨List.replicate 1023 'a' ++ [NUL], 1024, 1024⟩]⟩ ∧
      List.replicate 1023 'a' ++ [NUL] ≠ List.replicate 1024 'a' := by
  constructor
  · have h := print_out_loop_fit (List.replicate 1024 'a') (fun _ => true) 1
      1024 0 rfl
      (by simp only [List.length_replicate]; exact Nat.le_refl _)
    rw [show print_out (Fmt.ok (List.replicate 1024 'a')) (fun _ => true) 2 =
        print_out_loop (Fmt.ok (List.replicate 1024 'a')) (fun _ => true)
          (1 + 1) 1024 0 from rfl, h]
    rw [List.length_replicate]
    simp only [vsnprintfBuf]
    rw [List.length_replicate, show (1024 : Nat) - 1 = 1023 from rfl,
      List.take_replicate, show (1023 : Nat) ⊓ 1024 = 1023 from rfl,
      show (1024 : Nat) - (1024 : Nat) ⊓ 1023 = 1 from rfl,
      List.replicate_one]
    rfl
  · intro hEq
    have h2 : List.replicate 1023 'a' ++ [NUL] =
        List.replicate 1023 'a' ++ ['a'] := by
      rw [hEq, show (1024 : Nat) = 1023 + 1 from rfl, List.replicate_succ']
    have h3 : [NUL] = ['a'] := List.append_cancel_left h2
    have h4 : NUL = 'a' := by injection h3
    exact absurd h4 (by decide)

/-- C2: counterexample.  For the rendering of length exactly 1024 the claim
demands at least two render attempts, but the code's `n <= length` test
accepts the first 1024-byte buffer, so exactly one attempt occurs (and the
sink is invoked once, on a successful run). -/
theorem C2_counterexample :
    (print_out (Fmt.ok (List.replicate 1024 'a')) (fun _ => true) 2).map
      (fun r => (attempts r.trace, (sinkCalls r.trace).length, r.exit)) =
      some (1, 1, Exit.success) := by
  have h : print_out (Fmt.ok (List.replicate 1024 'a')) (fun _ => true) 2 =
      some ⟨((List.replicate 1024 'a').length : Int), .success,
        [.alloc 1024,
         .sink ⟨vsnprintfBuf (Fmt.ok (List.replicate 1024 'a')) 1024,
           (List.replicate 1024 'a').length, 1024⟩]⟩ :=
    print_out_loop_fit (List.replicate 1024 'a') (fun _ => true) 1 1024 0 rfl
      (by simp only [List.length_replicate]; exact Nat.le_refl _)
  rw [h]
  rfl

/-- C2: witness for the amended attempt-count theorem, at the spec's
2000-literal-character scenario: two attempts (capacities 1024 then 2000)
and one sink invocation. -/
theorem C2_attempt_counts_witness :
    (1024 : Nat) < (List.replicate 2000 'a').length ∧
      attempts [Event.alloc 1024, Event.free, Event.alloc 2000,
        Event.sink ⟨vsnprintfBuf (Fmt.ok (List.replicate 2000 'a')) 2000,
          2000, 2000⟩] = 2 ∧
      (sinkCalls [Event.alloc 1024, Event.free, Event.alloc 2000,
        Event.sink ⟨vsnprintfBuf (Fmt.ok (List.replicate 2000 'a')) 2000,
          2000, 2000⟩]).length = 1 := by
  have hlen : (List.replicate 2000 'a').length = 2000 := by
    simp only [List.length_replicate]
  have hmiss : (1024 : Nat) < (List.replicate 2000 'a').length := by
    rw [hlen]; omega
  have h1 := print_out_loop_miss (List.replicate 2000 'a') (fun _ => true) 1
    1024 0 rfl hmiss
  have h2 : print_out_loop (Fmt.ok (List.replicate 2000 'a')) (fun _ => true)
      1 (List.replicate 2000 'a').length 1 =
      some ⟨((List.replicate 2000 'a').length : Int), .success,
        [.alloc (List.replicate 2000 'a').length,
         .sink ⟨vsnprintfBuf (Fmt.ok (List.replicate 2000 'a'))
             (List.replicate 2000 'a').length,
           (List.replicate 2000 'a').length,
           (List.replicate 2000 'a').length⟩]⟩ :=
    print_out_loop_fit (List.replicate 2000 'a') (fun _ => true) 0
      (List.replicate 2000 'a').length 1 rfl (Nat.le_refl _)
  rw [hlen] at h1 h2
  have h : print_out (Fmt.ok (List.replicate 2000 'a')) (fun _ => true) 2 =
      some ⟨2000, .success,
        [.alloc 1024, .free, .alloc 2000,
         .sink ⟨vsnprintfBuf (Fmt.ok (List.replicate 2000 'a')) 2000,
           2000, 2000⟩]⟩ := by
    show print_out_loop (Fmt.ok (List.replicate 2000 'a')) (fun _ => true)
      (1 + 1) 1024 0 = _
    rw [h1, h2]
    rfl
  have hc := C2_attempt_counts (List.replicate 2000 'a') (fun _ => true) 2
    _ h rfl
  rw [if_pos hmiss] at hc
  exact ⟨hmiss, hc.1, hc.2⟩

/-- C8: counterexample.  The rendering of `"%s has %d items"` applied to
`("cart", 3)` is the 16-character string `"cart has 3 items"`, so
`print_out` returns 16, not 17 as the claim states. -/
theorem C8_counterexample :
    (print_out (Fmt.ok "cart has 3 items".toList) (fun _ => true) 2).map
      Result.ret = some 16 ∧ (16 : Int) ≠ 17 := by
  exact ⟨by decide, by decide⟩

/-- C8 (amended): for the template `"%s has %d items"` with arguments
`("cart", 3)` — whose rendering under C `printf` semantics is the
16-character string `"cart has 3 items"` — the sink receives exactly that
string, with length argument 16 and capacity argument 1024 (which is at
least 16), and `print_out` returns 16. -/
theorem C8_cart_scenario :
    (print_out (Fmt.ok "cart has 3 items".toList) (fun _ => true) 2).map
      (fun r => (r.ret, (sinkCalls r.trace).map
        (fun c => (c.buf.take c.len, c.len, c.cap)))) =
      some (16, [("cart has 3 items".toList, 16, 1024)]) ∧
      (16 : Nat) ≤ 1024 := by
  exact ⟨by decide, by decide⟩

/-- C9: counterexample.  On a successful run (rendering `"hi"`), the trace
contains one allocation, no `free` at all, and one sink invocation, and one
allocation made by the call is still live when the call returns: the
buffer of the successful attempt is handed to the sink and never freed by
`print_out`, contradicting the claim that every attempt's buffer is freed
by the end of that same attempt. -/
theorem C9_counterexample :
    (print_out (Fmt.ok ['h', 'i']) (fun _ => true) 2).map
      (fun r => (r.exit, attempts r.trace, frees r.trace,
        (sinkCalls r.trace).length, live r.trace)) =
      some (Exit.success, 1, 0, 1, 1) := by
  decide

/-- C9: witness for the amended liveness theorem, on the successful run for
the rendering `"hi"`: every prefix of the trace has between 0 and 1 live
allocations, and exactly one remains live at the end of the call. -/
theorem C9_liveness_witness :
    (0 ≤ live (List.take 2 [Event.alloc 1024,
        Event.sink ⟨vsnprintfBuf (Fmt.ok ['h', 'i']) 1024, 2, 1024⟩]) ∧
      live (List.take 2 [Event.alloc 1024,
        Event.sink ⟨vsnprintfBuf (Fmt.ok ['h', 'i']) 1024, 2, 1024⟩]) ≤ 1) ∧
    live (Result.trace ⟨2, Exit.success,
        [Event.alloc 1024,
         Event.sink ⟨vsnprintfBuf (Fmt.ok ['h', 'i']) 1024, 2, 1024⟩]⟩) =
      (if Result.exit ⟨2, Exit.success,
          [Event.alloc 1024,
           Event.sink ⟨vsnprintfBuf (Fmt.ok ['h', 'i']) 1024, 2, 1024⟩]⟩ =
          Exit.success then 1 else 0) := by
  have h : print_out (Fmt.ok ['h', 'i']) (fun _ => true) 2 =
      some ⟨2, .success,
        [.alloc 1024,
         .sink ⟨vsnprintfBuf (Fmt.ok ['h', 'i']) 1024, 2, 1024⟩]⟩ :=
    print_out_loop_fit ['h', 'i'] (fun _ => true) 1 1024 0 rfl (by decide)
  have hc := C9_liveness (Fmt.ok ['h', 'i']) (fun _ => true) 2 _ h
  exact ⟨hc.1 2, hc.2⟩

/-- C3: witness at the empty rendering: the sink is invoked exactly once
(and so at most once) on this successful zero-length render. -/
theorem C3_sink_at_most_once_witness :
    (sinkCalls (Result.trace ⟨0, Exit.success,
        [Event.alloc 1024,
         Event.sink ⟨vsnprintfBuf (Fmt.ok ([] : List Char)) 1024, 0,
           1024⟩]⟩)).length ≤ 1 ∧
    (sinkCalls (Result.trace ⟨0, Exit.success,
        [Event.alloc 1024,
         Event.sink ⟨vsnprintfBuf (Fmt.ok ([] : List Char)) 1024, 0,
           1024⟩]⟩)).length = 1 := by
  have h : print_out (Fmt.ok ([] : List Char)) (fun _ => true) 2 =
      some ⟨0, .success,
        [.alloc 1024,
         .sink ⟨vsnprintfBuf (Fmt.ok ([] : List Char)) 1024, 0, 1024⟩]⟩ :=
    print_out_loop_fit [] (fun _ => true) 1 1024 0 rfl (by decide)
  have hc := C3_sink_at_most_once (Fmt.ok []) (fun _ => true) 2 _ h
  exact ⟨hc.1, hc.2 (by decide) (by decide)⟩

/-- C4: witness on the successful run for the rendering `"hi"`: the
returned value is the reported length 2 and the single sink invocation
carried exactly that length. -/
theorem C4_returns_reported_length_witness :
    Result.ret ⟨2, Exit.success,
        [Event.alloc 1024,
         Event.sink ⟨vsnprintfBuf (Fmt.ok ['h', 'i']) 1024, 2, 1024⟩]⟩ =
      fmtLen (Fmt.ok ['h', 'i']) ∧
    (sinkCalls (Result.trace ⟨2, Exit.success,
        [Event.alloc 1024,
         Event.sink ⟨vsnprintfBuf (Fmt.ok ['h', 'i']) 1024, 2,
           1024⟩]⟩)).map SinkCall.len =
      [(Result.ret ⟨2, Exit.success,
        [Event.alloc 1024,
         Event.sink ⟨vsnprintfBuf (Fmt.ok ['h', 'i']) 1024, 2,
           1024⟩]⟩).toNat] := by
  have h : print_out (Fmt.ok ['h', 'i']) (fun _ => true) 2 =
      some ⟨2, .success,
        [.alloc 1024,
         .sink ⟨vsnprintfBuf (Fmt.ok ['h', 'i']) 1024, 2, 1024⟩]⟩ :=
    print_out_loop_fit ['h', 'i'] (fun _ => true) 1 1024 0 rfl (by decide)
  exact C4_returns_reported_length (Fmt.ok ['h', 'i']) (fun _ => true) 2 _ h
    rfl

/-- C5: witness with an always-failing allocator: the call returns 0 and
the sink is never invoked. -/
theorem C5_alloc_failure_witness :
    Result.ret ⟨0, Exit.allocFail, []⟩ = 0 ∧
      sinkCalls (Result.trace ⟨0, Exit.allocFail, []⟩) = [] := by
  have h : print_out (Fmt.ok ['h', 'i']) (fun _ => false) 2 =
      some ⟨0, .allocFail, []⟩ :=
    print_out_loop_allocFail (Fmt.ok ['h', 'i']) (fun _ => false) 1 1024 0
      rfl
  exact C5_alloc_failure (Fmt.ok ['h', 'i']) (fun _ => false) 2 _ h rfl

/-- C6: witness at encoding-error code 5 (primitive returns -6): the call
returns -6, a negative value, and the sink is never invoked. -/
theorem C6_encoding_error_witness :
    Result.ret ⟨-(1 + (5 : Int)), Exit.encodingError,
        [Event.alloc 1024, Event.free]⟩ = fmtLen (Fmt.err 5) ∧
    Result.ret ⟨-(1 + (5 : Int)), Exit.encodingError,
        [Event.alloc 1024, Event.free]⟩ < 0 ∧
    sinkCalls (Result.trace ⟨-(1 + (5 : Int)), Exit.encodingError,
        [Event.alloc 1024, Event.free]⟩) = [] := by
  have h : print_out (Fmt.err 5) (fun _ => true) 2 =
      some ⟨-(1 + (5 : Int)), .encodingError, [.alloc 1024, .free]⟩ :=
    print_out_loop_err 5 (fun _ => true) 1 1024 0 rfl
  exact C6_encoding_error 5 (fun _ => true) 2 _ h rfl

/-- C7: witness at the spec's 2000-literal-character scenario: allocation
sizes 1024 then exactly the reported length, in two attempts. -/
theorem C7_resize_to_reported_length_witness :
    allocSizes [Event.alloc 1024, Event.free, Event.alloc 2000,
      Event.sink ⟨vsnprintfBuf (Fmt.ok (List.replicate 2000 'a')) 2000,
        2000, 2000⟩] = [1024, (List.replicate 2000 'a').length] ∧
    attempts [Event.alloc 1024, Event.free, Event.alloc 2000,
      Event.sink ⟨vsnprintfBuf (Fmt.ok (List.replicate 2000 'a')) 2000,
        2000, 2000⟩] = 2 := by
  have hlen : (List.replicate 2000 'a').length = 2000 := by
    simp only [List.length_replicate]
  have hmiss : (1024 : Nat) < (List.replicate 2000 'a').length := by
    rw [hlen]; omega
  have h1 := print_out_loop_miss (List.replicate 2000 'a') (fun _ => true) 1
    1024 0 rfl hmiss
  have h2 : print_out_loop (Fmt.ok (List.replicate 2000 'a')) (fun _ => true)
      1 (List.replicate 2000 'a').length 1 =
      some ⟨((List.replicate 2000 'a').length : Int), .success,
        [.alloc (List.replicate 2000 'a').length,
         .sink ⟨vsnprintfBuf (Fmt.ok (List.replicate 2000 'a'))
             (List.replicate 2000 'a').length,
           (List.replicate 2000 'a').length,
           (List.replicate 2000 'a').length⟩]⟩ :=
    print_out_loop_fit (List.replicate 2000 'a') (fun _ => true) 0
      (List.replicate 2000 'a').length 1 rfl (Nat.le_refl _)
  rw [hlen] at h1 h2
  have h : print_out (Fmt.ok (List.replicate 2000 'a')) (fun _ => true) 2 =
      some ⟨2000, .success,
        [.alloc 1024, .free, .alloc 2000,
         .sink ⟨vsnprintfBuf (Fmt.ok (List.replicate 2000 'a')) 2000,
           2000, 2000⟩]⟩ := by
    show print_out_loop (Fmt.ok (List.replicate 2000 'a')) (fun _ => true)
      (1 + 1) 1024 0 = _
    rw [h1, h2]
    rfl
  exact C7_resize_to_reported_length (List.replicate 2000 'a')
    (fun _ => true) 2 _ h rfl hmiss

/-- C10: witness: with fuel 3 the outcome coincides with the fuel-2
outcome, which exists. -/
theorem C10_terminates_in_two_iterations_witness :
    (print_out (Fmt.ok ['h', 'i']) (fun _ => true) 2).isSome = true ∧
      print_out (Fmt.ok ['h', 'i']) (fun _ => true) 3 =
        print_out (Fmt.ok ['h', 'i']) (fun _ => true) 2 := by
  exact ⟨(C10_terminates_in_two_iterations (Fmt.ok ['h', 'i'])
      (fun _ => true)).1,
    (C10_terminates_in_two_iterations (Fmt.ok ['h', 'i'])
      (fun _ => true)).2 3 (by omega)⟩
